import Mathlib

/-!
Verification of the AurexisAgent task-execution engine.

This file gives a shallow embedding, in Lean 4, of the parts of the
repository that the specification talks about:

* `src/lib/agent/cache-client.ts` — the FNV-1a fingerprint, the
  key-normalisation (`JSON.stringify` with sorted keys) and the in-memory
  cache with TTL;
* `src/lib/agent/executor.ts` — `executeTask` (the part after parameter
  resolution: required-field checks, cache lookup, retry loop with backoff)
  and `executePlan` (the bounded-concurrency DAG scheduler);
* `src/lib/utils/topological-sort.ts` — Kahn's algorithm with cycle
  reporting.

JavaScript numbers that only ever hold 32-bit values are modelled as `Nat`
with explicit reduction modulo `2 ^ 32`; JavaScript truthiness is modelled
explicitly on a small value type `JsValue`.  Asynchrony in `executePlan` is
modelled by a small-step relation `SchedStep` (a dispatch iteration of
`startNext`, or the completion callback of one in-flight task) together
with a deterministic fuel-driven runner `runPlan` used to evaluate concrete
plans.
-/

set_option maxRecDepth 16000

namespace Aurexis

/-! ## JavaScript values and truthiness -/

/-- Small model of the JavaScript values flowing through the executor:
`null`, booleans, (integer) numbers, strings and opaque objects (tool
results). -/
inductive JsValue where
  | vNull
  | vBool (b : Bool)
  | vNum (n : Int)
  | vStr (s : String)
  | vObj (fields : List (String × String))
deriving DecidableEq, Repr

/-- JavaScript truthiness for `JsValue`: `null`, `false`, `0` and `""` are
falsy, everything else (in particular every object) is truthy. -/
def truthy : JsValue → Bool
  | .vNull => false
  | .vBool b => b
  | .vNum n => n != 0
  | .vStr s => s != ""
  | .vObj _ => true

/-- JavaScript truthiness of an optional string (used for `params.query`,
`params.expression`, ...: `undefined` and `""` are falsy). -/
def optTruthy : Option String → Bool
  | none => false
  | some s => s != ""

/-! ## Association lists (the model of JS `Map` / plain objects) -/

/-- Value stored under a key, looking at the first occurrence (keys are
kept unique by `setAssoc`). -/
def lookupAssoc {α : Type} : List (String × α) → String → Option α
  | [], _ => none
  | (k', v) :: rest, k => if k = k' then some v else lookupAssoc rest k

/-- Models `Map.set` / property assignment: overwrite the binding in place
if the key is present, append it otherwise (JS `Map` keeps insertion
order on update). -/
def setAssoc {α : Type} : List (String × α) → String → α → List (String × α)
  | [], k, v => [(k, v)]
  | (k', v') :: rest, k, v =>
      if k = k' then (k, v) :: rest else (k', v') :: setAssoc rest k v

/-! ## cache-client.ts: fingerprint and key generation -/

/-- Embeds one loop iteration of `fnv1aHash` from
`src/lib/agent/cache-client.ts`: `hash ^= c` followed by
`hash += (hash << 1) + (hash << 4) + (hash << 7) + (hash << 8) + (hash << 24)`.
The JS `^` operator reduces its operands to 32 bits and the final `>>> 0`
reduces the accumulated sum, so the per-step reduction modulo `2 ^ 32`
is exact. -/
def fnv1aStep (hash code : Nat) : Nat :=
  let h := hash ^^^ code
  (h + ((h <<< 1) + (h <<< 4) + (h <<< 7) + (h <<< 8) + (h <<< 24))) % 4294967296

/-- Embeds `fnv1aHash` (numeric part): fold `fnv1aStep` over the UTF-16
code units of the input, starting from the FNV offset basis. -/
def fnv1aNat (input : String) : Nat :=
  input.data.foldl (fun h c => fnv1aStep h c.toNat) 0x811c9dc5

/-- Embeds the final line of `fnv1aHash`:
`(hash >>> 0).toString(16).padStart(8, '0')`. -/
def fnv1aHash (input : String) : String :=
  let ds := Nat.toDigits 16 (fnv1aNat input)
  ⟨List.replicate (8 - ds.length) '0' ++ ds⟩

/-- Minimal JSON string escaping (backslash and double quote), enough to
model `JSON.stringify` on the flat string-valued key-part records the
executor builds. -/
def jsEscape (s : String) : String :=
  ⟨s.data.foldr (fun c acc =>
      if c = '"' ∨ c = '\\' then '\\' :: c :: acc else c :: acc) []⟩

/-- JSON quoting of a string. -/
def jsQuote (s : String) : String := "\"" ++ jsEscape s ++ "\""

/-- Lexicographic comparison of character lists by code unit, the order
used by JavaScript's default `Array.prototype.sort` on strings. -/
def charListLe : List Char → List Char → Bool
  | [], _ => true
  | _ :: _, [] => false
  | a :: as, b :: bs =>
      if a.toNat < b.toNat then true
      else if b.toNat < a.toNat then false
      else charListLe as bs

/-- Code-unit order on strings (agrees with `Object.keys(...).sort()`). -/
def strLe (a b : String) : Bool := charListLe a.data b.data

/-- Propositional form of `strLe`, used as the sorting relation. -/
def strLeR (a b : String) : Prop := strLe a b = true

instance : DecidableRel strLeR := fun a b => instDecidableEqBool (strLe a b) true

/-- Embeds `JSON.stringify(parts, Object.keys(parts).sort())`: the replacer
array makes `stringify` serialise exactly the listed keys, in the listed
(sorted) order.  `parts` is the flat string-valued record, as an
association list in insertion order. -/
def stringifySorted (parts : List (String × String)) : String :=
  let keys := List.insertionSort strLeR (parts.map Prod.fst)
  "\x7b" ++ String.intercalate ","
      (keys.map (fun k => jsQuote k ++ ":" ++ jsQuote ((lookupAssoc parts k).getD "")))
    ++ "\x7d"

/-- Embeds `InMemoryAgentCache.generateKey` from
`src/lib/agent/cache-client.ts`. -/
def InMemoryAgentCache.generateKey (parts : List (String × String)) : String :=
  fnv1aHash (stringifySorted parts)

/-- Embeds `UpstashRedisAgentCache.generateKey` (textually the same body as
the in-memory backend). -/
def UpstashRedisAgentCache.generateKey (parts : List (String × String)) : String :=
  fnv1aHash (stringifySorted parts)

/-- Embeds `generateKey` of the lazy wrapper cache returned by
`getAgentCache` when Upstash environment variables are set (again the same
body). -/
def lazyAgentCache.generateKey (parts : List (String × String)) : String :=
  fnv1aHash (stringifySorted parts)

/-! ## cache-client.ts: the in-memory store -/

/-- Task status, from `src/lib/types/agent.ts`. -/
inductive TaskStatus where
  | queued
  | running
  | completed
  | failed
  | skipped
deriving DecidableEq, Repr

/-- Stored cache value (`CacheValue` in `cache-client.ts`). -/
structure CacheEntry where
  result : JsValue
  timestamp : Nat
deriving DecidableEq, Repr

/-- Cache store: key to entry, the model of the private `Map` in
`InMemoryAgentCache`. -/
abbrev Cache := List (String × CacheEntry)

/-- Embeds `DEFAULT_TTL_MS = 24 * 60 * 60 * 1000` (also exported as
`TASK_TTL_MS`). -/
def DEFAULT_TTL_MS : Nat := 24 * 60 * 60 * 1000

/-- Shape of the value `AgentCache.get` resolves to on a hit (a `completed`
`TaskResult` wrapping the stored payload). -/
structure CachedTaskResult where
  taskId : String
  status : TaskStatus
  result : JsValue
deriving DecidableEq, Repr

/-- Embeds `InMemoryAgentCache.get`: miss on absent key, expire (and miss)
when `now - timestamp > DEFAULT_TTL_MS`, otherwise return a `completed`
`TaskResult` carrying the stored payload. -/
def InMemoryAgentCache.get (store : Cache) (key : String) (now : Nat) :
    Option CachedTaskResult :=
  match lookupAssoc store key with
  | none => none
  | some e =>
      if now - e.timestamp > DEFAULT_TTL_MS then none
      else some ⟨key, .completed, e.result⟩

/-- Embeds `InMemoryAgentCache.set` (the synchronous part: store the value
with the current timestamp; the delayed best-effort eviction callback only
ever removes entries that `get` already treats as expired). -/
def InMemoryAgentCache.set (store : Cache) (key : String) (result : JsValue)
    (now : Nat) : Cache :=
  setAssoc store key ⟨result, now⟩

/-! ## executor.ts: executeTask after parameter resolution -/

/-- Task, from `src/lib/types/agent.ts` (the optional raw `parameters`
record only feeds the parameter-resolution phase, which is modelled by the
already-resolved `ResolvedParams` below). -/
structure Task where
  id : String
  description : String
  tool : String
  dependencies : List String
deriving DecidableEq, Repr

/-- Parameters of a task after the resolution phase of `executeTask`
(`src/lib/agent/executor.ts` lines 121–453): the fields the required-field
checks and the cache-key construction read.  `city` stands for
`params.params?.city`. -/
structure ResolvedParams where
  query : Option String := none
  endpoint : Option String := none
  city : Option String := none
  expression : Option String := none
  symbol : Option String := none
deriving DecidableEq, Repr

/-- Keys of the `toolExecutors` record from `src/lib/agent/tools.ts`. -/
def toolNames : List String := ["web_search", "api", "calculator", "stock"]

/-- Models `String.prototype.trim`: strip whitespace from both ends. -/
def jsTrim (s : String) : String :=
  ⟨((s.data.dropWhile Char.isWhitespace).reverse.dropWhile Char.isWhitespace).reverse⟩

/-- Models `String.prototype.toUpperCase` on the ASCII range. -/
def jsToUpper (s : String) : String := ⟨s.data.map Char.toUpper⟩

/-- Embeds the required-field checks of `executeTask` (executor.ts lines
455–466), in source order; returns the thrown error message when a
required field is still missing (JS truthiness: `undefined` and `""` both
count as missing). -/
def missingFieldError (task : Task) (p : ResolvedParams) : Option String :=
  if task.tool = "web_search" ∧ optTruthy p.query = false then
    some ("Web search task requires a query. Task: \"" ++ task.description ++ "\"")
  else if task.tool = "api" ∧ (optTruthy p.endpoint = false ∨ optTruthy p.city = false) then
    some ("Weather API task requires a city. Task: \"" ++ task.description ++ "\"")
  else if task.tool = "calculator" ∧ optTruthy p.expression = false then
    some ("Calculator task requires an expression. Task: \"" ++ task.description ++ "\"")
  else if task.tool = "stock" ∧ optTruthy p.symbol = false then
    some ("Stock task requires a symbol. Task: \"" ++ task.description ++ "\"")
  else none

/-- Embeds the `keyParts` construction of `executeTask` (executor.ts lines
472–484): tool and trimmed description always, then the minimal stable
parameters per tool (symbol upper-cased), in insertion order. -/
def keyParts (task : Task) (p : ResolvedParams) : List (String × String) :=
  [("tool", task.tool), ("description", jsTrim task.description)]
    ++ (if task.tool = "web_search" ∧ optTruthy p.query = true then
          [("query", (p.query.getD ""))] else [])
    ++ (if task.tool = "api" ∧ optTruthy p.endpoint = true then
          [("endpoint", (p.endpoint.getD ""))]
            ++ (if optTruthy p.city = true then [("city", (p.city.getD ""))] else [])
        else [])
    ++ (if task.tool = "calculator" ∧ optTruthy p.expression = true then
          [("expression", (p.expression.getD ""))] else [])
    ++ (if task.tool = "stock" ∧ optTruthy p.symbol = true then
          [("symbol", jsToUpper (p.symbol.getD ""))] else [])

/-- Result value of `executeTask` (a `TaskResult` restricted to the fields
the claims are about; the timestamps are irrelevant to them). -/
structure TaskResultM where
  taskId : String
  status : TaskStatus
  result : Option JsValue
  error : Option String
deriving DecidableEq, Repr

/-- Observable outcome of one `executeTask` call: the returned
`TaskResult`, how many times the tool executor was invoked, the backoff
delays slept between attempts, the intermediate `running`/`Retrying...`
progress notifications sent through `onUpdate`, and the cache afterwards. -/
structure ExecOutcome where
  result : TaskResultM
  invocations : Nat
  delays : List Nat
  retryNotices : List String
  cacheAfter : Cache
deriving DecidableEq, Repr

/-- Embeds the retry loop of `executeTask` (executor.ts lines 497–536):
`for (attempt = 0; attempt < 3; attempt++)` invoking the tool, caching and
returning on success; on error storing it as the last error and, when
`attempt < 2`, emitting a `Retrying... (attempt k/3)` notification and
sleeping `1000 * (attempt + 1)` ms before the next attempt; after the loop
returning a `failed` result carrying the last error.  The i-th invocation
yields `tool i`; `remaining` counts the loop iterations left. -/
def runAttempts (task : Task) (cacheKey : String) (cache : Cache) (now : Nat)
    (tool : Nat → Except String JsValue) :
    Nat → Nat → Nat → List Nat → List String → Option String → ExecOutcome
  | 0, _, inv, delays, notices, lastErr =>
      ⟨⟨task.id, .failed, none, some (lastErr.getD "Unknown error")⟩,
        inv, delays, notices, cache⟩
  | remaining + 1, attempt, inv, delays, notices, _ =>
      match tool attempt with
      | .ok v =>
          ⟨⟨task.id, .completed, some v, none⟩, inv + 1, delays, notices,
            InMemoryAgentCache.set cache cacheKey v now⟩
      | .error e =>
          if attempt < 2 then
            runAttempts task cacheKey cache now tool remaining (attempt + 1)
              (inv + 1)
              (delays ++ [1000 * (attempt + 1)])
              (notices ++ ["Retrying... (attempt " ++ toString (attempt + 2) ++ "/3)"])
              (some e)
          else
            runAttempts task cacheKey cache now tool remaining (attempt + 1)
              (inv + 1) delays notices (some e)

/-- Embeds `executeTask` from the point where parameters are resolved
(executor.ts lines 116–119 and 455–548): unknown tool and missing
required fields are thrown and caught into a `failed` result without any
tool invocation; then the cache is consulted (a hit counts only when
`cached?.result` is truthy) and otherwise the retry loop runs. -/
def executeTaskCore (task : Task) (p : ResolvedParams) (cache : Cache)
    (now : Nat) (tool : Nat → Except String JsValue) : ExecOutcome :=
  if task.tool ∉ toolNames then
    ⟨⟨task.id, .failed, none,
        some ("Unknown tool: " ++ task.tool ++ ". Available tools: "
          ++ String.intercalate ", " toolNames)⟩, 0, [], [], cache⟩
  else
    match missingFieldError task p with
    | some msg => ⟨⟨task.id, .failed, none, some msg⟩, 0, [], [], cache⟩
    | none =>
        match InMemoryAgentCache.get cache
            (InMemoryAgentCache.generateKey (keyParts task p)) now with
        | some cached =>
            if truthy cached.result then
              ⟨⟨task.id, .completed, some cached.result, none⟩, 0, [], [], cache⟩
            else
              runAttempts task (InMemoryAgentCache.generateKey (keyParts task p))
                cache now tool 3 0 0 [] [] none
        | none =>
            runAttempts task (InMemoryAgentCache.generateKey (keyParts task p))
              cache now tool 3 0 0 [] [] none

/-- Condition under which `executeTask` does not take the cache shortcut:
the model of `cached?.result` being falsy at executor.ts line 486 (either
no fresh entry, or a fresh entry whose stored payload is falsy). -/
def cacheMissOrFalsy (cache : Cache) (key : String) (now : Nat) : Bool :=
  match InMemoryAgentCache.get cache key now with
  | none => true
  | some cached => !truthy cached.result

/-! ## topological-sort.ts -/

/-- Models `taskMap.get` (the `Map` built from the task list; on duplicate
ids a JS `Map` keeps the last insertion, matching plans whose ids the
planner guarantees unique). -/
def findTask (tasks : List Task) (id : String) : Option Task :=
  tasks.find? (fun t => t.id = id)

/-- Embeds the in-degree initialisation of `topologicalSort`
(`topological-sort.ts` lines 14–31): zero for every task, then one
increment per declared dependency of the task (dangling references still
increment the referring task's in-degree, exactly as in the source). -/
def buildInDegree (tasks : List Task) : List (String × Nat) :=
  let init := tasks.map (fun t => (t.id, 0))
  tasks.foldl (fun m t =>
    t.dependencies.foldl (fun m _dep =>
      setAssoc m t.id ((lookupAssoc m t.id).getD 0 + 1)) m) init

/-- Embeds the dependents-graph construction of `topologicalSort`: for
every task and declared dependency `depId`, append the task's id to
`graph[depId]` (creating the entry if absent, also for dangling ids). -/
def buildGraph (tasks : List Task) : List (String × List String) :=
  let init := tasks.map (fun t => (t.id, ([] : List String)))
  tasks.foldl (fun g t =>
    t.dependencies.foldl (fun g depId =>
      setAssoc g depId ((lookupAssoc g depId).getD [] ++ [t.id])) g) init

/-- Embeds the Kahn worklist loop of `topologicalSort` (lines 43–59): pop
the head of the queue, append the corresponding task to the result,
decrement every dependent's in-degree and enqueue dependents reaching
zero.  Each id enters the queue at most once, so `tasks.length + 1` fuel
never runs out. -/
def kahnLoop (tasks : List Task) (graph : List (String × List String)) :
    Nat → List String → List (String × Nat) → List Task → List Task
  | 0, _, _, res => res
  | _ + 1, [], _, res => res
  | fuel + 1, taskId :: queue, inDeg, res =>
      let res := match findTask tasks taskId with
        | some t => res ++ [t]
        | none => res
      let step := ((lookupAssoc graph taskId).getD []).foldl
        (fun (p : List (String × Nat) × List String) dependentId =>
          let newDegree := (lookupAssoc p.1 dependentId).getD 0 - 1
          (setAssoc p.1 dependentId newDegree,
            if newDegree = 0 then p.2 ++ [dependentId] else p.2))
        (inDeg, [])
      kahnLoop tasks graph fuel (queue ++ step.2) step.1 res

/-- Models `path.indexOf` on strings (0 when absent is harmless here: the
source only calls it when the element is present). -/
def indexOfStr : List String → String → Nat
  | [], _ => 0
  | x :: xs, a => if x = a then 0 else indexOfStr xs a + 1

/-- Embeds the recursive `findCycle` helper of `topologicalSort` (lines
68–89).  The source mutates a shared `visited`/`path` pair, but every
frame removes exactly what it added before returning `null`, so passing
the extended lists downwards is equivalent; the
`for (const depId of task.dependencies)` loop returning the first cycle
found is `List.findSome?`.  `fuel` bounds the recursion depth; each
descent adds a fresh id to `visited`, so any fuel above the number of
task ids is enough. -/
def findCycleAux (tasks : List Task) : Nat → String → List String → List String →
    Option (List String)
  | 0, _, _, _ => none
  | fuel + 1, startId, visited, path =>
      if startId ∈ visited then
        some (path.drop (indexOfStr path startId) ++ [startId])
      else
        match findTask tasks startId with
        | none => none
        | some t =>
            t.dependencies.findSome?
              (fun d => findCycleAux tasks fuel d (visited ++ [startId]) (path ++ [startId]))

/-- Embeds the error-message construction of `topologicalSort` (lines
97–106): the fixed header, the remaining (unprocessed) tasks with their
descriptions truncated to 50 characters, the reconstructed cycle path when
one was found, and the fixed advice lines. -/
def cycleErrorMsg (remaining : List Task) (cycle : Option (List String)) : String :=
  "Circular dependency detected in task graph.\n"
    ++ ("Tasks involved in cycle: "
        ++ String.intercalate ", "
            (remaining.map (fun t => t.id ++ " (" ++ t.description.take 50 ++ "...)"))
        ++ ".\n"
        ++ (match cycle with
            | some c => if c.length > 1 then "Cycle path: " ++ String.intercalate " -> " c ++ ".\n" else ""
            | none => "")
        ++ "\nPlease review the task dependencies to ensure they form a valid Directed Acyclic Graph (DAG)."
        ++ "\nEach task should only depend on tasks that come before it, not tasks that depend on it.")

/-- Embeds `topologicalSort` from `src/lib/utils/topological-sort.ts`
(`Except.error` models the thrown `Error`): Kahn's algorithm; if some
tasks were not processed, search each remaining task for a cycle and
throw the diagnostic message. -/
def topologicalSort (tasks : List Task) : Except String (List Task) :=
  let inDeg := buildInDegree tasks
  let graph := buildGraph tasks
  let queue := (tasks.filter (fun t => (lookupAssoc inDeg t.id).getD 0 = 0)).map (·.id)
  let result := kahnLoop tasks graph (tasks.length + 1) queue inDeg []
  if result.length ≠ tasks.length then
    let processed := result.map (·.id)
    let remaining := tasks.filter (fun t => t.id ∉ processed)
    let cycle := remaining.findSome?
      (fun t => findCycleAux tasks (tasks.length + 2) t.id [] [])
    .error (cycleErrorMsg remaining cycle)
  else
    .ok result

/-! ## executor.ts: executePlan ordering -/

/-- Models `String.prototype.includes` (substring containment). -/
def listStartsWith : List Char → List Char → Bool
  | _, [] => true
  | [], _ :: _ => false
  | h :: hs, n :: ns => h = n && listStartsWith hs ns

/-- Substring search over the character list of the haystack. -/
def listContains (hay needle : List Char) : Bool :=
  match hay with
  | [] => listStartsWith [] needle
  | _ :: rest => listStartsWith hay needle || listContains rest needle

/-- Boolean substring containment on strings, the model of
`errorMessage.includes('Circular dependency')`. -/
def containsStr (hay needle : String) : Bool :=
  listContains hay.data needle.data

/-- Models `id.match(/\d+/)?.[0]`: the first maximal run of digits. -/
def firstDigitRun : List Char → List Char
  | [] => []
  | c :: cs => if c.isDigit then c :: cs.takeWhile Char.isDigit else firstDigitRun cs

/-- Models `parseInt(id.match(/\d+/)?.[0] || '0')`: numeric value of the
first digit run, 0 when there is none. -/
def numericSuffix (id : String) : Nat :=
  (firstDigitRun id.data).foldl (fun n c => n * 10 + (c.toNat - 48)) 0

/-- Embeds the fallback ordering of `executePlan` (executor.ts lines
580–584): a stable sort of the tasks by the numeric part of their id. -/
def fallbackOrder (tasks : List Task) : List Task :=
  List.insertionSort (fun a b => numericSuffix a.id ≤ numericSuffix b.id) tasks

/-- Embeds the ordering phase of `executePlan` (executor.ts lines
571–588): use `topologicalSort`; on an error mentioning
`Circular dependency` fall back to id-number order, on any other error
keep the plan order. -/
def executePlanOrder (tasks : List Task) : List Task :=
  match topologicalSort tasks with
  | .ok sorted => sorted
  | .error msg =>
      if containsStr msg "Circular dependency" then fallbackOrder tasks else tasks

/-! ## executor.ts: the bounded-concurrency scheduler of executePlan

The scheduler (executor.ts lines 594–690) runs `startNext` — a loop that
pops ready ids and dispatches them while fewer than `MAX_CONCURRENCY`
tasks are in flight — and an async completion handler per dispatched task.
One `SchedStep` is either a single iteration of the `startNext` loop body
(`dispatchOne`) or the completion handler of one in-flight task
(`finishOne`); the interleavings of these cover the event-loop behaviours
of the source.  Task outcomes are abstracted by an oracle
`o : String → Bool` (`true` = the awaited `executeTask` returned
`completed`, `false` = it returned `failed`; by construction it never
throws). -/

/-- Embeds `const MAX_CONCURRENCY = 3`. -/
def MAX_CONCURRENCY : Nat := 3

/-- Entry of the `results` map as far as the scheduler claims are
concerned: final status and error text. -/
structure SchedResult where
  status : TaskStatus
  error : Option String
deriving DecidableEq, Repr

/-- Status notifications sent through `onUpdate` by `executePlan`. -/
inductive Event where
  | status (taskId : String) (st : TaskStatus) (error : Option String)
deriving DecidableEq, Repr

/-- Scheduler state of `executePlan`: the ready queue, the `inProgress`
set, the `completedTaskIds` / `failedTaskIds` sets, the `results` map, the
remaining-dependency counters and the log of emitted notifications. -/
structure SchedState where
  queue : List String
  inProgress : List String
  completed : List String
  failed : List String
  results : List (String × SchedResult)
  depCount : List (String × Nat)
  events : List Event
deriving DecidableEq, Repr

/-- Embeds the dependency re-validation of `startNext` (line 622):
`task.dependencies.every((d) => completed.has(d) && !failed.has(d))`. -/
def depsMet (s : SchedState) (task : Task) : Bool :=
  task.dependencies.all (fun d => s.completed.contains d && !s.failed.contains d)

/-- Embeds one iteration of the `while` body of `startNext` (executor.ts
lines 614–643): pop the queue head; drop it if already done or in flight
or unknown; re-validate dependencies — on a failed dependency record a
`skipped` result and notification, on merely unmet dependencies drop the
id (it is re-enqueued by the completion handler when its counter reaches
zero); otherwise add it to `inProgress` and emit `running`. -/
def dispatchOne (tasks : List Task) (s : SchedState) : SchedState :=
  match s.queue with
  | [] => s
  | nextId :: rest =>
      let s := { s with queue := rest }
      if s.completed.contains nextId || s.failed.contains nextId
          || s.inProgress.contains nextId then s
      else
        match findTask tasks nextId with
        | none => s
        | some task =>
            if depsMet s task then
              { s with inProgress := s.inProgress ++ [nextId],
                       events := s.events ++ [.status nextId .running none] }
            else
              let failedDeps := task.dependencies.filter (fun d => s.failed.contains d)
              if failedDeps.isEmpty then s
              else
                { s with
                  results := setAssoc s.results task.id
                    ⟨.skipped, some ("Dependencies failed: "
                        ++ String.intercalate ", " failedDeps)⟩,
                  events := s.events ++ [.status task.id .skipped
                    (some ("Cannot execute: dependencies "
                        ++ String.intercalate ", " failedDeps ++ " failed"))] }

/-- Embeds the dependents map built by `executePlan` (lines 598–607) from
the sorted task list. -/
def buildDependents (tasks : List Task) : List (String × List String) :=
  tasks.foldl (fun m t =>
    t.dependencies.foldl (fun m dep =>
      setAssoc m dep ((lookupAssoc m dep).getD [] ++ [t.id])) m) []

/-- One dependent update of the completion handler (lines 657–663):
decrement the counter (`remaining`, inlined below) and enqueue the
dependent when it reaches zero. -/
def applyDecrement (s : SchedState) (dependentId : String) : SchedState :=
  if (lookupAssoc s.depCount dependentId).getD 0 - 1 = 0 then
    { s with
      depCount := setAssoc s.depCount dependentId
        ((lookupAssoc s.depCount dependentId).getD 0 - 1),
      queue := s.queue ++ [dependentId] }
  else
    { s with
      depCount := setAssoc s.depCount dependentId
        ((lookupAssoc s.depCount dependentId).getD 0 - 1) }

/-- Embeds the completion handler of a dispatched task (executor.ts lines
646–680): record the result and notification; on `completed` add the id to
the completed set and update dependents; on `failed` add it to the failed
set (the source enqueues nothing in this case); finally remove the id from
`inProgress`.  The failed-branch error text abstracts the message of the
`failed` `TaskResult`. -/
def finishOne (dependents : List (String × List String)) (o : String → Bool)
    (t : String) (s : SchedState) : SchedState :=
  if o t then
    let s := { s with
      results := setAssoc s.results t ⟨.completed, none⟩,
      events := s.events ++ [.status t .completed none],
      completed := s.completed ++ [t] }
    let s := ((lookupAssoc dependents t).getD []).foldl applyDecrement s
    { s with inProgress := s.inProgress.erase t }
  else
    { s with
      results := setAssoc s.results t ⟨.failed, some "Task failed"⟩,
      events := s.events ++ [.status t .failed (some "Task failed")],
      failed := s.failed ++ [t],
      inProgress := s.inProgress.erase t }

/-- Embeds the scheduler initialisation of `executePlan` (lines 596–611):
dependency counters from the sorted tasks and the initial ready queue of
tasks with counter zero. -/
def initState (sorted : List Task) : SchedState :=
  let depCount := sorted.map (fun t => (t.id, t.dependencies.length))
  { queue := (sorted.filter (fun t => (lookupAssoc depCount t.id).getD 0 = 0)).map (·.id)
    inProgress := []
    completed := []
    failed := []
    results := []
    depCount := depCount
    events := [] }

/-- Small-step transition of the `executePlan` scheduler: either one
iteration of the `startNext` loop (possible exactly under its `while`
guard) or the completion of one in-flight task. -/
inductive SchedStep (tasks : List Task) (dependents : List (String × List String))
    (o : String → Bool) : SchedState → SchedState → Prop
  | dispatch (s : SchedState) (hq : s.queue ≠ [])
      (hc : s.inProgress.length < MAX_CONCURRENCY) :
      SchedStep tasks dependents o s (dispatchOne tasks s)
  | finish (s : SchedState) (t : String) (ht : t ∈ s.inProgress) :
      SchedStep tasks dependents o s (finishOne dependents o t s)

/-- States of the `executePlan` scheduler reachable for a given plan and
outcome oracle. -/
inductive SchedReach (plan : List Task) (o : String → Bool) : SchedState → Prop
  | init : SchedReach plan o (initState (executePlanOrder plan))
  | step {s s' : SchedState} : SchedReach plan o s →
      SchedStep plan (buildDependents (executePlanOrder plan)) o s s' →
      SchedReach plan o s'

/-- Deterministic fuel-driven runner realising one fair interleaving of
the scheduler (greedy dispatch, oldest in-flight task finishes first); it
stops exactly when the `while (inProgress.size > 0 || readyQueue.length > 0)`
loop of `executePlan` exits. -/
def runSched (tasks : List Task) (dependents : List (String × List String))
    (o : String → Bool) : Nat → SchedState → SchedState
  | 0, s => s
  | fuel + 1, s =>
      if s.queue ≠ [] ∧ s.inProgress.length < MAX_CONCURRENCY then
        runSched tasks dependents o fuel (dispatchOne tasks s)
      else
        match s.inProgress with
        | t :: _ => runSched tasks dependents o fuel (finishOne dependents o t s)
        | [] => s

/-- Evaluates `executePlan` on a plan under an outcome oracle: compute the
execution order, initialise the scheduler and run it. -/
def runPlan (plan : List Task) (o : String → Bool) (fuel : Nat) : SchedState :=
  let sorted := executePlanOrder plan
  runSched plan (buildDependents sorted) o fuel (initState sorted)

/-! ## Concrete plans and oracles used by the claims -/

/-- Two-task plan in which `task-2` depends on `task-1` (the scenario of
the result-map coverage claim). -/
def chainPlan : List Task :=
  [⟨"task-1", "Search for: first thing", "web_search", []⟩,
   ⟨"task-2", "Search for: second thing", "web_search", ["task-1"]⟩]

/-- Outcome oracle making exactly `task-1` fail (its tool exhausts all
retries). -/
def failTask1 : String → Bool := fun id => id != "task-1"

/-- Outcome oracle under which every task succeeds. -/
def allOk : String → Bool := fun _ => true

/-- Cyclic plan: `task-1` depends on `task-2` and `task-2` on `task-1`. -/
def cyclicPlan : List Task :=
  [⟨"task-1", "first task", "web_search", ["task-2"]⟩,
   ⟨"task-2", "second task", "web_search", ["task-1"]⟩]

/-- Plan whose single task lists a dependency id absent from the plan. -/
def danglingPlan : List Task :=
  [⟨"task-1", "Search for: something", "web_search", ["task-9"]⟩]

/-- Plan with a dangling reference on `task-1` and an independent
`task-2`. -/
def danglingPlan2 : List Task :=
  [⟨"task-1", "Search for: something", "web_search", ["task-9"]⟩,
   ⟨"task-2", "Search for: other thing", "web_search", []⟩]

/-- Plan in which `task-2` lists `task-1` twice (a duplicate dependency
reference). -/
def dupDepPlan : List Task :=
  [⟨"task-1", "Search for: first thing", "web_search", []⟩,
   ⟨"task-2", "Search for: second thing", "web_search", ["task-1", "task-1"]⟩]

/-- Ten mutually independent tasks (the concurrency-ceiling scenario). -/
def tenPlan : List Task :=
  (List.range 10).map (fun i =>
    ⟨"task-" ++ toString (i + 1), "Search for: item " ++ toString (i + 1),
      "web_search", []⟩)

/-- Sample web-search task used by the `executeTask` witnesses. -/
def sampleTask : Task := ⟨"task-1", "Search for: cats", "web_search", []⟩

/-- The sample task's resolved parameters. -/
def sampleParams : ResolvedParams := { query := some "cats" }

/-- Tool executor failing on every attempt. -/
def failingTool : Nat → Except String JsValue := fun i => .error ("boom " ++ toString i)

/-- Tool executor succeeding with a (truthy) object result. -/
def okTool : Nat → Except String JsValue := fun _ => .ok (.vObj [("summary", "ok")])

/-- Cache key of the sample task. -/
def sampleKey : String := InMemoryAgentCache.generateKey (keyParts sampleTask sampleParams)

/-! ## Order properties of the key comparator -/

theorem charListLe_total : ∀ a b : List Char, charListLe a b = true ∨ charListLe b a = true
  | [], _ => Or.inl rfl
  | _ :: _, [] => Or.inr rfl
  | a :: as, b :: bs => by
      simp only [charListLe]
      rcases Nat.lt_trichotomy a.toNat b.toNat with h | h | h
      · left; simp [h]
      · have h1 : ¬ a.toNat < b.toNat := by omega
        have h2 : ¬ b.toNat < a.toNat := by omega
        simp only [h1, h2, if_false, if_neg]
        exact charListLe_total as bs
      · right; simp [h]

theorem charListLe_head_le {a b : Char} {as bs : List Char}
    (h : charListLe (a :: as) (b :: bs) = true) : a.toNat ≤ b.toNat := by
  simp only [charListLe] at h
  by_cases h1 : a.toNat < b.toNat
  · omega
  · by_cases h2 : b.toNat < a.toNat
    · simp [h1, h2] at h
    · omega

theorem charListLe_trans : ∀ a b c : List Char,
    charListLe a b = true → charListLe b c = true → charListLe a c = true
  | [], _, _, _, _ => rfl
  | _ :: _, [], _, h, _ => by simp [charListLe] at h
  | _ :: _, _ :: _, [], _, h => by simp [charListLe] at h
  | a :: as, b :: bs, c :: cs, hab, hbc => by
      have le1 := charListLe_head_le hab
      have le2 := charListLe_head_le hbc
      rcases Nat.lt_trichotomy a.toNat c.toNat with h | h | h
      · simp [charListLe, h]
      · have n1 : ¬ a.toNat < b.toNat := by omega
        have n2 : ¬ b.toNat < a.toNat := by omega
        have n3 : ¬ b.toNat < c.toNat := by omega
        have n4 : ¬ c.toNat < b.toNat := by omega
        have n5 : ¬ a.toNat < c.toNat := by omega
        have n6 : ¬ c.toNat < a.toNat := by omega
        simp only [charListLe] at hab hbc ⊢
        rw [if_neg n1, if_neg n2] at hab
        rw [if_neg n3, if_neg n4] at hbc
        rw [if_neg n5, if_neg n6]
        exact charListLe_trans as bs cs hab hbc
      · omega

theorem charListLe_antisymm : ∀ a b : List Char,
    charListLe a b = true → charListLe b a = true → a = b
  | [], [], _, _ => rfl
  | [], _ :: _, _, h => by simp [charListLe] at h
  | _ :: _, [], h, _ => by simp [charListLe] at h
  | a :: as, b :: bs, hab, hba => by
      have le1 := charListLe_head_le hab
      have le2 := charListLe_head_le hba
      have he : a.toNat = b.toNat := by omega
      have hc : a = b := Char.ext (UInt32.ext he)
      have h1 : ¬ a.toNat < b.toNat := by omega
      have h2 : ¬ b.toNat < a.toNat := by omega
      simp only [charListLe, h1, h2, if_false, if_neg] at hab hba
      rw [hc, charListLe_antisymm as bs hab hba]

instance : IsTotal String strLeR :=
  ⟨fun a b => charListLe_total a.data b.data⟩

instance : IsTrans String strLeR :=
  ⟨fun a b c hab hbc => charListLe_trans a.data b.data c.data hab hbc⟩

instance : IsAntisymm String strLeR :=
  ⟨fun a b hab hba => by
    cases a; cases b
    exact congrArg String.mk (charListLe_antisymm _ _ hab hba)⟩

/-! ## Lookup respects permutation on duplicate-free keys -/

theorem lookupAssoc_perm {α : Type} {l₁ l₂ : List (String × α)} (hp : l₁.Perm l₂) :
    (l₁.map Prod.fst).Nodup → ∀ k : String, lookupAssoc l₁ k = lookupAssoc l₂ k := by
  induction hp with
  | nil => intro _ _; rfl
  | cons a _ ih =>
      intro hnd k
      simp only [List.map_cons, List.nodup_cons] at hnd
      simp only [lookupAssoc]
      split
      · rfl
      · exact ih hnd.2 k
  | swap a b l =>
      intro hnd k
      simp only [List.map_cons, List.nodup_cons, List.mem_cons, not_or] at hnd
      have hne : b.1 ≠ a.1 := hnd.1.1
      simp only [lookupAssoc]
      by_cases h1 : k = b.1 <;> by_cases h2 : k = a.1
      · exact absurd (h1.symm.trans h2) hne
      · simp [h1, h2, hne, Ne.symm hne]
      · simp [h1, h2, hne, Ne.symm hne]
      · simp [h1, h2]
  | trans h₁ _ ih₁ ih₂ =>
      intro hnd k
      have hnd₂ := ((h₁.map Prod.fst).nodup_iff).mp hnd
      exact (ih₁ hnd k).trans (ih₂ hnd₂ k)

/-! ## Lemmas about executeTaskCore -/

theorem missingFieldError_tool_mem {task : Task} {p : ResolvedParams} {msg : String}
    (h : missingFieldError task p = some msg) : task.tool ∈ toolNames := by
  unfold missingFieldError at h
  split_ifs at h with h1 h2 h3 h4
  · rw [h1.1]; decide
  · rw [h2.1]; decide
  · rw [h3.1]; decide
  · rw [h4.1]; decide

theorem runAttempts_congr (task : Task) (key : String) (cache : Cache) (now : Nat)
    (tool tool' : Nat → Except String JsValue) :
    ∀ (r a inv : Nat) (delays : List Nat) (notices : List String)
      (lastErr : Option String),
      (∀ i, a ≤ i → i < a + r → tool i = tool' i) →
      runAttempts task key cache now tool r a inv delays notices lastErr
        = runAttempts task key cache now tool' r a inv delays notices lastErr := by
  intro r
  induction r with
  | zero => intro _ _ _ _ _ _; rfl
  | succ r ih =>
      intro a inv delays notices lastErr h
      simp only [runAttempts]
      rw [h a (Nat.le_refl a) (by omega)]
      cases tool' a with
      | ok v => rfl
      | error e =>
          by_cases ha : a < 2
          · simp only [if_pos ha]
            exact ih (a + 1) _ _ _ _ (fun i h1 h2 => h i (by omega) (by omega))
          · simp only [if_neg ha]
            exact ih (a + 1) _ _ _ _ (fun i h1 h2 => h i (by omega) (by omega))

theorem runAttempts_invocations_pos (task : Task) (key : String) (cache : Cache)
    (now : Nat) (tool : Nat → Except String JsValue) :
    ∀ (r a inv : Nat) (delays : List Nat) (notices : List String)
      (lastErr : Option String),
      inv + 1 ≤ (runAttempts task key cache now tool (r + 1) a inv delays notices lastErr).invocations := by
  intro r
  induction r with
  | zero =>
      intro a inv delays notices lastErr
      simp only [runAttempts]
      cases tool a with
      | ok v => exact Nat.le_refl _
      | error e =>
          by_cases ha : a < 2
          · simp only [if_pos ha, runAttempts]
            exact Nat.le_refl _
          · simp only [if_neg ha, runAttempts]
            exact Nat.le_refl _
  | succ r ih =>
      intro a inv delays notices lastErr
      simp only [runAttempts]
      cases tool a with
      | ok v => exact Nat.le_refl _
      | error e =>
          by_cases ha : a < 2
          · simp only [if_pos ha]
            exact Nat.le_trans (Nat.le_succ _)
              (ih (a + 1) (inv + 1) (delays ++ [1000 * (a + 1)])
                (notices ++ ["Retrying... (attempt " ++ toString (a + 2) ++ "/3)"])
                (some e))
          · simp only [if_neg ha]
            exact Nat.le_trans (Nat.le_succ _)
              (ih (a + 1) (inv + 1) delays notices (some e))

theorem executeTaskCore_eq_runAttempts (task : Task) (p : ResolvedParams)
    (cache : Cache) (now : Nat) (tool : Nat → Except String JsValue)
    (hmem : task.tool ∈ toolNames) (hmf : missingFieldError task p = none)
    (hmiss : cacheMissOrFalsy cache (InMemoryAgentCache.generateKey (keyParts task p)) now = true) :
    executeTaskCore task p cache now tool
      = runAttempts task (InMemoryAgentCache.generateKey (keyParts task p))
          cache now tool 3 0 0 [] [] none := by
  unfold cacheMissOrFalsy at hmiss
  unfold executeTaskCore
  rw [if_neg (by simp [hmem]), hmf]
  cases hget : InMemoryAgentCache.get cache
      (InMemoryAgentCache.generateKey (keyParts task p)) now with
  | none => rfl
  | some cached =>
      rw [hget] at hmiss
      simp only [Bool.not_eq_true'] at hmiss
      simp [hmiss]

theorem lookupAssoc_setAssoc_self {α : Type} (c : List (String × α)) (k : String) (v : α) :
    lookupAssoc (setAssoc c k v) k = some v := by
  induction c with
  | nil => simp [setAssoc, lookupAssoc]
  | cons hd tl ih =>
      by_cases h : k = hd.1
      · cases hd; simp [setAssoc, lookupAssoc, h]
      · cases hd; simp only [setAssoc] at *
        rw [if_neg h]
        simp only [lookupAssoc]
        rw [if_neg h]
        exact ih

theorem cacheGet_set_fresh (cache : Cache) (key : String) (v : JsValue) (now : Nat) :
    InMemoryAgentCache.get (InMemoryAgentCache.set cache key v now) key now
      = some ⟨key, .completed, v⟩ := by
  unfold InMemoryAgentCache.get InMemoryAgentCache.set
  rw [lookupAssoc_setAssoc_self]
  simp [DEFAULT_TTL_MS]

theorem runAttempts_allFail (task : Task) (key : String) (cache : Cache) (now : Nat)
    (tool : Nat → Except String JsValue) (err : Nat → String)
    (hfail : ∀ i, i < 3 → tool i = .error (err i)) :
    runAttempts task key cache now tool 3 0 0 [] [] none
      = ⟨⟨task.id, .failed, none, some (err 2)⟩, 3, [1000, 2000],
          ["Retrying... (attempt 2/3)", "Retrying... (attempt 3/3)"], cache⟩ := by
  rw [runAttempts_congr task key cache now tool (fun i => .error (err i)) 3 0 0 [] [] none
    (fun i h1 h2 => hfail i (by omega))]
  rfl

theorem runAttempts_first_ok (task : Task) (key : String) (cache : Cache) (now : Nat)
    (tool : Nat → Except String JsValue) (v : JsValue) (h : tool 0 = .ok v) :
    runAttempts task key cache now tool 3 0 0 [] [] none
      = ⟨⟨task.id, .completed, some v, none⟩, 1, [], [],
          InMemoryAgentCache.set cache key v now⟩ := by
  have e : runAttempts task key cache now tool 3 0 0 [] [] none
      = match tool 0 with
        | .ok v' => ⟨⟨task.id, .completed, some v', none⟩, 0 + 1, [], [],
            InMemoryAgentCache.set cache key v' now⟩
        | .error e' =>
            if 0 < 2 then
              runAttempts task key cache now tool 2 1 (0 + 1) ([] ++ [1000 * (0 + 1)])
                ([] ++ ["Retrying... (attempt " ++ toString (0 + 2) ++ "/3)"]) (some e')
            else runAttempts task key cache now tool 2 1 (0 + 1) [] [] (some e') := rfl
  rw [e, h]

/-! ## Claims about executeTask -/

/-- C4: for a task whose tool invocation fails on every attempt (with the
tool known, required fields present and no usable cache entry),
`executeTask` invokes the tool exactly 3 times, sleeps the strictly
increasing backoff delays 1000 ms and 2000 ms between consecutive
attempts, emits a `Retrying...` progress notification between attempts,
and returns a `failed` `TaskResult` carrying the last attempt's error,
without throwing and without further retries. -/
theorem claim_C4 (task : Task) (p : ResolvedParams) (cache : Cache) (now : Nat)
    (tool : Nat → Except String JsValue) (err : Nat → String)
    (hmem : task.tool ∈ toolNames) (hmf : missingFieldError task p = none)
    (hmiss : cacheMissOrFalsy cache (InMemoryAgentCache.generateKey (keyParts task p)) now = true)
    (hfail : ∀ i, i < 3 → tool i = .error (err i)) :
    executeTaskCore task p cache now tool
      = ⟨⟨task.id, .failed, none, some (err 2)⟩, 3, [1000, 2000],
          ["Retrying... (attempt 2/3)", "Retrying... (attempt 3/3)"], cache⟩ ∧
    List.Chain' (· < ·) (executeTaskCore task p cache now tool).delays := by
  have he := executeTaskCore_eq_runAttempts task p cache now tool hmem hmf hmiss
  rw [he, runAttempts_allFail _ _ _ _ _ err hfail]
  exact ⟨rfl, by show List.Chain' (· < ·) [1000, 2000]; exact List.chain'_pair.mpr (by omega)⟩

theorem claim_C4_witness :
    executeTaskCore sampleTask sampleParams [] 0 failingTool
      = ⟨⟨"task-1", .failed, none, some "boom 2"⟩, 3, [1000, 2000],
          ["Retrying... (attempt 2/3)", "Retrying... (attempt 3/3)"], []⟩ ∧
    List.Chain' (· < ·) (executeTaskCore sampleTask sampleParams [] 0 failingTool).delays :=
  claim_C4 sampleTask sampleParams [] 0 failingTool (fun i => "boom " ++ toString i)
    (by decide) (by decide) (by decide) (fun _ _ => rfl)

/-- C9: for a task whose required tool field is still missing after
parameter resolution, `executeTask` returns a `failed` `TaskResult`
carrying the descriptive thrown message, invokes the tool zero times,
sleeps no backoff and emits no retry notification. -/
theorem claim_C9 (task : Task) (p : ResolvedParams) (cache : Cache) (now : Nat)
    (tool : Nat → Except String JsValue) (msg : String)
    (h : missingFieldError task p = some msg) :
    executeTaskCore task p cache now tool
      = ⟨⟨task.id, .failed, none, some msg⟩, 0, [], [], cache⟩ := by
  have hmem := missingFieldError_tool_mem h
  unfold executeTaskCore
  rw [if_neg (by simp [hmem]), h]

theorem claim_C9_witness :
    executeTaskCore sampleTask ⟨none, none, none, none, none⟩ [] 0 okTool
      = ⟨⟨"task-1", .failed, none,
          some "Web search task requires a query. Task: \"Search for: cats\""⟩,
          0, [], [], []⟩ :=
  claim_C9 sampleTask ⟨none, none, none, none, none⟩ [] 0 okTool
    "Web search task requires a query. Task: \"Search for: cats\"" (by decide)

/-- C7 (amended): a fresh cache entry is only used when its payload is
truthy.  First part: on a fresh truthy hit, `executeTask` returns a
`completed` result carrying the cached payload and never invokes the
tool.  Second part: when the first run misses the cache (or hits a falsy
entry) and the tool succeeds with a truthy value, that run invokes the
tool exactly once and a second run over the resulting cache invokes it
zero times. -/
theorem claim_C7 (task : Task) (p : ResolvedParams) (cache : Cache) (now : Nat)
    (tool : Nat → Except String JsValue)
    (hmem : task.tool ∈ toolNames) (hmf : missingFieldError task p = none) :
    (∀ cached, InMemoryAgentCache.get cache
          (InMemoryAgentCache.generateKey (keyParts task p)) now = some cached →
        truthy cached.result = true →
        executeTaskCore task p cache now tool
          = ⟨⟨task.id, .completed, some cached.result, none⟩, 0, [], [], cache⟩) ∧
    (∀ v, tool 0 = .ok v → truthy v = true →
        cacheMissOrFalsy cache (InMemoryAgentCache.generateKey (keyParts task p)) now = true →
        (executeTaskCore task p cache now tool).invocations = 1 ∧
        (executeTaskCore task p (executeTaskCore task p cache now tool).cacheAfter
            now tool).invocations = 0) := by
  constructor
  · intro cached hget htr
    unfold executeTaskCore
    rw [if_neg (by simp [hmem]), hmf, hget]
    simp [htr]
  · intro v htool htr hmiss
    have he := executeTaskCore_eq_runAttempts task p cache now tool hmem hmf hmiss
    have hfo := runAttempts_first_ok task
      (InMemoryAgentCache.generateKey (keyParts task p)) cache now tool v htool
    refine ⟨by rw [he, hfo], ?_⟩
    rw [he, hfo]
    unfold executeTaskCore
    rw [if_neg (by simp [hmem]), hmf, cacheGet_set_fresh]
    simp [htr]

def truthyCache : Cache := [(sampleKey, ⟨.vStr "cached", 0⟩)]

def falsyCache : Cache := [(sampleKey, ⟨.vNum 0, 0⟩)]

theorem claim_C7_witness :
    executeTaskCore sampleTask sampleParams truthyCache 5 okTool
      = ⟨⟨"task-1", .completed, some (.vStr "cached"), none⟩, 0, [], [], truthyCache⟩ :=
  (claim_C7 sampleTask sampleParams truthyCache 5 okTool (by decide) (by decide)).1
    ⟨sampleKey, .completed, .vStr "cached"⟩ (by decide) (by decide)

theorem claim_C7_counterexample :
    (InMemoryAgentCache.get falsyCache sampleKey 5).isSome = true ∧
    ¬((executeTaskCore sampleTask sampleParams falsyCache 5 okTool).invocations = 0 ∧
      (executeTaskCore sampleTask sampleParams falsyCache 5 okTool).result.result
        = some (JsValue.vNum 0)) := by decide

/-- C10: a fresh cache entry whose stored payload is falsy is treated as a
cache miss: `executeTask` invokes the tool at least once anyway. -/
theorem claim_C10 (task : Task) (p : ResolvedParams) (cache : Cache) (now : Nat)
    (tool : Nat → Except String JsValue) (cached : CachedTaskResult)
    (hmem : task.tool ∈ toolNames) (hmf : missingFieldError task p = none)
    (hget : InMemoryAgentCache.get cache
        (InMemoryAgentCache.generateKey (keyParts task p)) now = some cached)
    (hfalsy : truthy cached.result = false) :
    1 ≤ (executeTaskCore task p cache now tool).invocations := by
  have hmiss : cacheMissOrFalsy cache
      (InMemoryAgentCache.generateKey (keyParts task p)) now = true := by
    unfold cacheMissOrFalsy
    rw [hget]
    simp [hfalsy]
  rw [executeTaskCore_eq_runAttempts task p cache now tool hmem hmf hmiss]
  exact runAttempts_invocations_pos task _ cache now tool 2 0 0 [] [] none

theorem claim_C10_witness :
    1 ≤ (executeTaskCore sampleTask sampleParams falsyCache 5 okTool).invocations :=
  claim_C10 sampleTask sampleParams falsyCache 5 okTool
    ⟨sampleKey, .completed, .vNum 0⟩ (by decide) (by decide) (by decide) (by decide)

/-- C8: `generateKey` is invariant under permutation of the argument map's
insertion order (two maps with the same key-value pairs in any order hash
to the identical cache key), and the three cache backends compute the
identical key for identical parts. -/
theorem claim_C8 (l₁ l₂ : List (String × String)) (hp : l₁.Perm l₂)
    (hnd : (l₁.map Prod.fst).Nodup) :
    InMemoryAgentCache.generateKey l₁ = InMemoryAgentCache.generateKey l₂ ∧
    ∀ parts, InMemoryAgentCache.generateKey parts = UpstashRedisAgentCache.generateKey parts ∧
        InMemoryAgentCache.generateKey parts = lazyAgentCache.generateKey parts := by
  refine ⟨?_, fun parts => ⟨rfl, rfl⟩⟩
  have hkeys : List.insertionSort strLeR (l₁.map Prod.fst)
      = List.insertionSort strLeR (l₂.map Prod.fst) :=
    List.eq_of_perm_of_sorted
      ((List.perm_insertionSort _ _).trans
        ((hp.map Prod.fst).trans (List.perm_insertionSort _ _).symm))
      (List.sorted_insertionSort _ _) (List.sorted_insertionSort _ _)
  have hlk := lookupAssoc_perm hp hnd
  unfold InMemoryAgentCache.generateKey stringifySorted
  rw [hkeys]
  simp only [hlk]

theorem claim_C8_witness :
    InMemoryAgentCache.generateKey [("b", "2"), ("a", "1")]
      = InMemoryAgentCache.generateKey [("a", "1"), ("b", "2")] ∧
    ∀ parts, InMemoryAgentCache.generateKey parts = UpstashRedisAgentCache.generateKey parts ∧
        InMemoryAgentCache.generateKey parts = lazyAgentCache.generateKey parts :=
  claim_C8 [("b", "2"), ("a", "1")] [("a", "1"), ("b", "2")] (by decide) (by decide)

/-! ## Scheduler lemmas -/

theorem applyDecrement_fields (s : SchedState) (d : String) :
    (applyDecrement s d).events = s.events ∧
    (applyDecrement s d).completed = s.completed ∧
    (applyDecrement s d).inProgress = s.inProgress := by
  unfold applyDecrement
  split <;> exact ⟨rfl, rfl, rfl⟩

theorem foldl_applyDecrement_fields (l : List String) (s : SchedState) :
    ((l.foldl applyDecrement s).events = s.events ∧
     (l.foldl applyDecrement s).completed = s.completed ∧
     (l.foldl applyDecrement s).inProgress = s.inProgress) := by
  induction l generalizing s with
  | nil => exact ⟨rfl, rfl, rfl⟩
  | cons d ds ih =>
      rw [List.foldl_cons]
      have h1 := applyDecrement_fields s d
      have h2 := ih (applyDecrement s d)
      exact ⟨h2.1.trans h1.1, h2.2.1.trans h1.2.1, h2.2.2.trans h1.2.2⟩

theorem finishOne_inProgress (dependents : List (String × List String))
    (o : String → Bool) (t : String) (s : SchedState) :
    (finishOne dependents o t s).inProgress = s.inProgress.erase t := by
  by_cases h : o t <;>
    simp [finishOne, h, (foldl_applyDecrement_fields _ _).2.2]

theorem dispatchOne_inProgress_length (tasks : List Task) (s : SchedState) :
    (dispatchOne tasks s).inProgress.length ≤ s.inProgress.length + 1 := by
  unfold dispatchOne
  cases hq : s.queue with
  | nil => dsimp only; omega
  | cons nextId rest =>
      dsimp only
      split
      · dsimp only; omega
      · split
        · dsimp only; omega
        · split
          · dsimp only
            simp only [List.length_append, List.length_cons, List.length_nil]
            omega
          · split
            · dsimp only; omega
            · dsimp only; omega

theorem dispatchOne_events_spec (tasks : List Task) (s : SchedState) :
    ((dispatchOne tasks s).events = s.events ∧
      (dispatchOne tasks s).completed = s.completed) ∨
    (∃ id msg, (dispatchOne tasks s).events
        = s.events ++ [.status id .skipped (some msg)] ∧
      (dispatchOne tasks s).completed = s.completed) ∨
    (∃ nextId task, findTask tasks nextId = some task ∧
      depsMet s task = true ∧
      (dispatchOne tasks s).events = s.events ++ [.status nextId .running none] ∧
      (dispatchOne tasks s).completed = s.completed) := by
  unfold dispatchOne
  cases hq : s.queue with
  | nil => exact Or.inl ⟨rfl, rfl⟩
  | cons nextId rest =>
      dsimp only
      split
      · exact Or.inl ⟨rfl, rfl⟩
      · split
        · exact Or.inl ⟨rfl, rfl⟩
        · rename_i task hfind
          split
          · rename_i hdeps
            exact Or.inr (Or.inr ⟨nextId, task, hfind, hdeps, rfl, rfl⟩)
          · split
            · exact Or.inl ⟨rfl, rfl⟩
            · exact Or.inr (Or.inl ⟨task.id, _, rfl, rfl⟩)

theorem finishOne_events_spec (dependents : List (String × List String))
    (o : String → Bool) (t : String) (s : SchedState) :
    ((finishOne dependents o t s).events = s.events ++ [.status t .completed none] ∧
      (finishOne dependents o t s).completed = s.completed ++ [t]) ∨
    ((finishOne dependents o t s).events
        = s.events ++ [.status t .failed (some "Task failed")] ∧
      (finishOne dependents o t s).completed = s.completed) := by
  by_cases h : o t
  · left
    constructor <;>
      simp [finishOne, h, (foldl_applyDecrement_fields _ _).1,
        (foldl_applyDecrement_fields _ _).2.1]
  · right
    constructor <;> simp [finishOne, h]

/-- C3: throughout any execution of `executePlan`, the number of tasks
simultaneously in flight never exceeds the concurrency ceiling
`MAX_CONCURRENCY = 3`, however many tasks are ready. -/
theorem claim_C3 (plan : List Task) (o : String → Bool) (s : SchedState)
    (h : SchedReach plan o s) : s.inProgress.length ≤ MAX_CONCURRENCY := by
  induction h with
  | init => simp [initState, MAX_CONCURRENCY]
  | @step s s' hr hstep ih =>
      cases hstep with
      | dispatch hq hc =>
          have hb := dispatchOne_inProgress_length plan s
          omega
      | finish t ht =>
          rw [finishOne_inProgress]
          exact Nat.le_trans (List.erase_sublist t s.inProgress).length_le ih

theorem claim_C3_witness :
    (initState (executePlanOrder tenPlan)).inProgress.length ≤ MAX_CONCURRENCY :=
  claim_C3 tenPlan allOk _ SchedReach.init

/-! ## Events of a run respect the dependency order -/

theorem snoc_eq_append_cons {α : Type} {l l₁ l₂ : List α} {e x : α}
    (h : l ++ [e] = l₁ ++ x :: l₂) :
    (l₁ = l ∧ x = e ∧ l₂ = []) ∨ ∃ l₃, l = l₁ ++ x :: l₃ ∧ l₂ = l₃ ++ [e] := by
  induction l generalizing l₁ with
  | nil =>
      cases l₁ with
      | nil =>
          rw [List.nil_append, List.nil_append] at h
          injection h with h1 h2
          exact Or.inl ⟨rfl, h1.symm, h2.symm⟩
      | cons b bs =>
          rw [List.nil_append, List.cons_append] at h
          injection h with h1 h2
          exact absurd h2.symm (by simp)
  | cons a as ih =>
      cases l₁ with
      | nil =>
          rw [List.cons_append, List.nil_append] at h
          injection h with h1 h2
          subst h1
          exact Or.inr ⟨as, (List.nil_append _).symm, h2.symm⟩
      | cons b bs =>
          rw [List.cons_append, List.cons_append] at h
          injection h with h1 h2
          rcases ih h2 with ⟨hl, hx, hnil⟩ | ⟨l₃, hl, he2⟩
          · exact Or.inl ⟨by rw [h1, hl], hx, hnil⟩
          · exact Or.inr ⟨l₃, by rw [h1, hl, List.cons_append], he2⟩

/-- Invariant tying the scheduler state to its notification log: every
completed task has its `completed` notification in the log, and every
`running` notification was emitted after the `completed` notifications of
all of the task's dependencies. -/
def EventsInv (plan : List Task) (s : SchedState) : Prop :=
  (∀ c, c ∈ s.completed → Event.status c .completed none ∈ s.events) ∧
  (∀ l₁ l₂ t, s.events = l₁ ++ Event.status t .running none :: l₂ →
    ∀ task, findTask plan t = some task →
      ∀ d, d ∈ task.dependencies → Event.status d .completed none ∈ l₁)

theorem depsMet_completed {s : SchedState} {task : Task}
    (h : depsMet s task = true) {d : String} (hd : d ∈ task.dependencies) :
    d ∈ s.completed := by
  unfold depsMet at h
  rw [List.all_eq_true] at h
  have hda := h d hd
  rw [Bool.and_eq_true] at hda
  simpa using hda.1

theorem schedReach_eventsInv (plan : List Task) (o : String → Bool) (s : SchedState)
    (h : SchedReach plan o s) : EventsInv plan s := by
  induction h with
  | init =>
      constructor
      · intro c hc
        simp [initState] at hc
      · intro l₁ l₂ t hsplit
        exfalso
        have : (initState (executePlanOrder plan)).events = [] := rfl
        rw [this] at hsplit
        cases l₁ <;> simp at hsplit
  | @step s s' hr hstep ih =>
      cases hstep with
      | dispatch hq hc =>
          rcases dispatchOne_events_spec plan s with
            ⟨he, hcm⟩ | ⟨id, msg, he, hcm⟩ | ⟨nextId, task, hfind, hdeps, he, hcm⟩
          · exact ⟨fun c hcmem => he ▸ ih.1 c (hcm ▸ hcmem),
              fun l₁ l₂ t hsplit => ih.2 l₁ l₂ t (by rw [← he, hsplit])⟩
          · refine ⟨fun c hcmem => ?_, fun l₁ l₂ t hsplit task' htask' d hd => ?_⟩
            · rw [he]
              exact List.mem_append_left _ (ih.1 c (hcm ▸ hcmem))
            · rw [he] at hsplit
              rcases snoc_eq_append_cons hsplit with ⟨_, hx, _⟩ | ⟨l₃, hev, _⟩
              · cases hx
              · exact ih.2 l₁ l₃ t hev task' htask' d hd
          · refine ⟨fun c hcmem => ?_, fun l₁ l₂ t hsplit task' htask' d hd => ?_⟩
            · rw [he]
              exact List.mem_append_left _ (ih.1 c (hcm ▸ hcmem))
            · rw [he] at hsplit
              rcases snoc_eq_append_cons hsplit with ⟨hl₁, hx, _⟩ | ⟨l₃, hev, _⟩
              · obtain ⟨ht, _⟩ := Event.status.inj hx.symm
                subst ht
                rw [hfind] at htask'
                cases htask'
                rw [hl₁]
                exact ih.1 d (depsMet_completed hdeps hd)
              · exact ih.2 l₁ l₃ t hev task' htask' d hd
      | finish t ht =>
          rcases finishOne_events_spec (buildDependents (executePlanOrder plan)) o t s with
            ⟨he, hcm⟩ | ⟨he, hcm⟩
          · refine ⟨fun c hcmem => ?_, fun l₁ l₂ t' hsplit task' htask' d hd => ?_⟩
            · rw [he]
              rw [hcm] at hcmem
              rcases List.mem_append.mp hcmem with hl | hr
              · exact List.mem_append_left _ (ih.1 c hl)
              · simp only [List.mem_singleton] at hr
                subst hr
                exact List.mem_append_right _ (by simp)
            · rw [he] at hsplit
              rcases snoc_eq_append_cons hsplit with ⟨_, hx, _⟩ | ⟨l₃, hev, _⟩
              · obtain ⟨_, hst, _⟩ := Event.status.inj hx.symm
                cases hst
              · exact ih.2 l₁ l₃ t' hev task' htask' d hd
          · refine ⟨fun c hcmem => ?_, fun l₁ l₂ t' hsplit task' htask' d hd => ?_⟩
            · rw [he]
              exact List.mem_append_left _ (ih.1 c (hcm ▸ hcmem))
            · rw [he] at hsplit
              rcases snoc_eq_append_cons hsplit with ⟨_, hx, _⟩ | ⟨l₃, hev, _⟩
              · obtain ⟨_, hst, _⟩ := Event.status.inj hx.symm
                cases hst
              · exact ih.2 l₁ l₃ t' hev task' htask' d hd

/-- C2: in every reachable state of the `executePlan` scheduler, whenever
the notification log contains a `running` transition for a task, the
`completed` notifications of all of that task's declared dependencies
occur strictly earlier in the log: a task is dispatched only after
re-validating that every dependency is in the completed set. -/
theorem claim_C2 (plan : List Task) (o : String → Bool) (s : SchedState)
    (h : SchedReach plan o s) (l₁ l₂ : List Event) (t : String) (task : Task)
    (hsplit : s.events = l₁ ++ Event.status t .running none :: l₂)
    (htask : findTask plan t = some task)
    (d : String) (hd : d ∈ task.dependencies) :
    Event.status d .completed none ∈ l₁ :=
  (schedReach_eventsInv plan o s h).2 l₁ l₂ t hsplit task htask d hd

/-! ## Concrete run of the scheduler used as the C2 witness -/

/-- Scheduler state after dispatching `task-1` of `chainPlan`. -/
def chainS1 : SchedState := dispatchOne chainPlan (initState (executePlanOrder chainPlan))

/-- Scheduler state after `task-1` completes. -/
def chainS2 : SchedState :=
  finishOne (buildDependents (executePlanOrder chainPlan)) allOk "task-1" chainS1

/-- Scheduler state after dispatching `task-2`. -/
def chainS3 : SchedState := dispatchOne chainPlan chainS2

theorem claim_C2_witness :
    Event.status "task-1" .completed none
      ∈ [Event.status "task-1" .running none, Event.status "task-1" .completed none] :=
  claim_C2 chainPlan allOk chainS3
    (SchedReach.step
      (SchedReach.step
        (SchedReach.step SchedReach.init (SchedStep.dispatch _ (by decide) (by decide)))
        (SchedStep.finish _ "task-1" (by decide)))
      (SchedStep.dispatch _ (by decide) (by decide)))
    [Event.status "task-1" .running none, Event.status "task-1" .completed none] []
    "task-2" ⟨"task-2", "Search for: second thing", "web_search", ["task-1"]⟩
    (by decide) (by decide) "task-1" (by decide)

/-! ## C1: coverage of the result map -/

/-- C1 (evaluation of the code at the failing input): running `chainPlan`
with `task-1` failing, the scheduler terminates with `task-1` recorded as
`failed` but with no entry at all for `task-2` in the result map — in
particular no `skipped` entry and no `skipped` notification — contradicting
the claim that every task of the plan is covered exactly once. -/
theorem claim_C1 :
    (runPlan chainPlan failTask1 20).queue = [] ∧
    (runPlan chainPlan failTask1 20).inProgress = [] ∧
    lookupAssoc (runPlan chainPlan failTask1 20).results "task-1"
      = some ⟨.failed, some "Task failed"⟩ ∧
    lookupAssoc (runPlan chainPlan failTask1 20).results "task-2" = none ∧
    (runPlan chainPlan failTask1 20).events
      = [.status "task-1" .running none,
         .status "task-1" .failed (some "Task failed")] := by decide

/-! ## C5: dangling and duplicate dependency references -/

theorem claim_C5_counterexample :
    (topologicalSort danglingPlan).isOk = false ∧
    (runPlan danglingPlan allOk 20).queue = [] ∧
    (runPlan danglingPlan allOk 20).inProgress = [] ∧
    lookupAssoc (runPlan danglingPlan allOk 20).results "task-1" = none := by decide

/-- C5 (amended): a duplicate dependency reference is tolerated — the plan
executes fully — but a dangling reference is not dropped by the executor:
`topologicalSort` rejects the plan, and while the remaining tasks still
execute, the task with the dangling reference is left unexecuted (absent
from the result map). -/
theorem claim_C5 :
    (lookupAssoc (runPlan dupDepPlan allOk 20).results "task-1" = some ⟨.completed, none⟩ ∧
     lookupAssoc (runPlan dupDepPlan allOk 20).results "task-2" = some ⟨.completed, none⟩) ∧
    (lookupAssoc (runPlan danglingPlan2 allOk 20).results "task-2" = some ⟨.completed, none⟩ ∧
     lookupAssoc (runPlan danglingPlan2 allOk 20).results "task-1" = none ∧
     (runPlan danglingPlan2 allOk 20).queue = [] ∧
     (runPlan danglingPlan2 allOk 20).inProgress = []) := by decide

/-! ## C6: cycle detection, fallback ordering, termination -/

theorem listStartsWith_nil (l : List Char) : listStartsWith l [] = true := by
  cases l <;> rfl

theorem listStartsWith_append {l m n : List Char} (h : listStartsWith l n = true) :
    listStartsWith (l ++ m) n = true := by
  induction n generalizing l with
  | nil => exact listStartsWith_nil _
  | cons c cs ih =>
      cases l with
      | nil => simp [listStartsWith] at h
      | cons a as =>
          rw [List.cons_append]
          simp only [listStartsWith, Bool.and_eq_true] at h ⊢
          exact ⟨h.1, ih h.2⟩

theorem listContains_of_startsWith {hay needle : List Char}
    (h : listStartsWith hay needle = true) : listContains hay needle = true := by
  cases hay with
  | nil =>
      cases needle with
      | nil => rfl
      | cons c cs => simp [listStartsWith] at h
  | cons a rest => simp [listContains, h]

theorem cycleErrorMsg_contains (remaining : List Task) (cycle : Option (List String)) :
    containsStr (cycleErrorMsg remaining cycle) "Circular dependency" = true := by
  unfold containsStr cycleErrorMsg
  rw [String.data_append]
  exact listContains_of_startsWith (listStartsWith_append (by decide))

theorem topologicalSort_error_shape (tasks : List Task) (msg : String)
    (h : topologicalSort tasks = .error msg) :
    containsStr msg "Circular dependency" = true ∧
    executePlanOrder tasks = fallbackOrder tasks := by
  have hc : containsStr msg "Circular dependency" = true := by
    have h' := h
    unfold topologicalSort at h'
    dsimp only at h'
    split at h'
    · injection h' with he
      rw [← he]
      exact cycleErrorMsg_contains _ _
    · cases h'
  refine ⟨hc, ?_⟩
  unfold executePlanOrder
  rw [h]
  simp [hc]

/-- C6: for every plan rejected by `topologicalSort` the thrown message
mentions `Circular dependency` and `executePlan` falls back to the
ordering by the numeric part of the task id; on the concrete two-task
cycle, the message names `task-1` and the reconstructed cycle path
`task-1 -> task-2 -> task-1`, the fallback ordering is `task-1, task-2`,
and the scheduler terminates immediately (empty queue, nothing in
flight). -/
theorem claim_C6 :
    (∀ tasks msg, topologicalSort tasks = .error msg →
        containsStr msg "Circular dependency" = true ∧
        executePlanOrder tasks = fallbackOrder tasks) ∧
    (match topologicalSort cyclicPlan with
      | .error msg => containsStr msg "task-1" && containsStr msg "Circular dependency"
          && containsStr msg "Cycle path: task-1 -> task-2 -> task-1"
      | .ok _ => false) = true ∧
    executePlanOrder cyclicPlan = fallbackOrder cyclicPlan ∧
    fallbackOrder cyclicPlan = cyclicPlan ∧
    (runPlan cyclicPlan allOk 20).queue = [] ∧
    (runPlan cyclicPlan allOk 20).inProgress = [] ∧
    (runPlan cyclicPlan allOk 20).results = [] := by
  refine ⟨topologicalSort_error_shape, ?_, ?_, ?_, ?_, ?_, ?_⟩ <;> decide

/-- Exact diagnostic message produced by `topologicalSort` on
`cyclicPlan`. -/
def cyclicMsg : String :=
  "Circular dependency detected in task graph.\nTasks involved in cycle: task-1 (first task...), task-2 (second task...).\nCycle path: task-1 -> task-2 -> task-1.\n\nPlease review the task dependencies to ensure they form a valid Directed Acyclic Graph (DAG).\nEach task should only depend on tasks that come before it, not tasks that depend on it."

theorem claim_C6_witness :
    containsStr cyclicMsg "Circular dependency" = true ∧
    executePlanOrder cyclicPlan = fallbackOrder cyclicPlan :=
  claim_C6.1 cyclicPlan cyclicMsg rfl

end Aurexis
